import Mathlib

/-!
# Verification of the woof concurrent upload engine and provider consistency layer

Shallow embedding of the core of `parnexcodes/woof`:
* the error taxonomy (`internal/providers/base.go`),
* the consistency wrapper (`internal/providers/wrapper.go`),
* the upload pool engine (`internal/uploader/pool.go`, the current
  logging-instrumented revision, whose dispatch loop converts scan errors
  into result entries),
* the progress computation (`progressReader` in `pool.go`), with IEEE-754
  special values modelled exactly where the zero-size-file boundary
  exercises them.

Go mutation of the shared `io.Reader` is embedded as explicit state
passing: a provider's `Upload` is a function from a stream/provider state
to a new state plus its Go result pair `(*ProviderResponse, error)`.
Durations (`time.Duration`) are natural numbers of nanoseconds.
-/

namespace Woof

/-- Error kinds of `ErrorType` in `internal/providers/base.go`. -/
inductive ErrorType where
  | unknown
  | network
  | api
  | authentication
  | quota
  | fileTooLarge
  | unsupported
  | temporary
deriving DecidableEq, Repr

/-- Go `error` values as the engine sees them: a structured `*ProviderError`
(kind, code, message, retryable flag, optional wrapped cause), an error
produced by `fmt.Errorf` with a `%w` verb (message plus wrapped cause), or a
plain error with only a message. -/
inductive GoError where
  | providerErr (etype : ErrorType) (code : String) (message : String)
      (retryable : Bool) (cause : Option GoError)
  | wrapped (message : String) (cause : GoError)
  | plain (message : String)
deriving Repr

/-- `(*ProviderError).Error()` / `error.Error()`: the message text, with the
provider-specific code appended when present. -/
def GoError.errorString : GoError → String
  | .providerErr _ code msg _ _ =>
      if code = "" then msg else msg ++ " (code: " ++ code ++ ")"
  | .wrapped msg _ => msg
  | .plain msg => msg

/-- `NewProviderError` in `base.go`. -/
def NewProviderError (etype : ErrorType) (code message : String)
    (retryable : Bool) (cause : Option GoError) : GoError :=
  .providerErr etype code message retryable cause

/-- `NewNetworkError` in `base.go`. -/
def NewNetworkError (message : String) (cause : Option GoError) : GoError :=
  NewProviderError .network "" message true cause

/-- `NewAPIError` in `base.go`. -/
def NewAPIError (code message : String) (cause : Option GoError) : GoError :=
  NewProviderError .api code message false cause

/-- `NewAuthenticationError` in `base.go`. -/
def NewAuthenticationError (message : String) (cause : Option GoError) : GoError :=
  NewProviderError .authentication "" message false cause

/-- `NewQuotaError` in `base.go`. -/
def NewQuotaError (message : String) (cause : Option GoError) : GoError :=
  NewProviderError .quota "" message true cause

/-- `NewFileTooLargeError` in `base.go`. -/
def NewFileTooLargeError (message : String) (cause : Option GoError) : GoError :=
  NewProviderError .fileTooLarge "" message false cause

/-- `NewUnsupportedError` in `base.go`. -/
def NewUnsupportedError (message : String) (cause : Option GoError) : GoError :=
  NewProviderError .unsupported "" message false cause

/-- `NewTemporaryError` in `base.go`. -/
def NewTemporaryError (message : String) (cause : Option GoError) : GoError :=
  NewProviderError .temporary "" message true cause

/-- `GetErrorType` in `base.go`: `errors.As` walks the `Unwrap` chain until
it finds a `*ProviderError`; otherwise the type is `ErrorTypeUnknown`. -/
def GetErrorType : GoError → ErrorType
  | .providerErr t _ _ _ _ => t
  | .wrapped _ cause => GetErrorType cause
  | .plain _ => .unknown

/-- `strings.Contains`: substring test, via `List.IsInfix` on the character
lists. -/
def strContains (s sub : String) : Bool :=
  decide (sub.data <:+: s.data)

/-- `ProviderResponse` in `base.go` (the opaque `ProviderData interface{}`
payload is not observable by any core logic and is omitted; `Expires` is an
optional timestamp). -/
structure ProviderResponse where
  url : String := ""
  downloadURL : String := ""
  deleteURL : String := ""
  id : String := ""
  expires : Option Int := none
  metadata : Option (List (String × String)) := none
deriving DecidableEq, Repr

/-- `WrapperConfig` in `wrapper.go`. `retryDelay` is in nanoseconds.
`maxRetries` is kept as a natural number (the claims and defaults only use
non-negative retry counts). -/
structure WrapperConfig where
  preUploadValidation : Bool
  validateResponses : Bool
  autoRetry : Bool
  maxRetries : Nat
  retryDelay : Nat
  enhanceResponses : Bool
  checkCapabilities : Bool
deriving DecidableEq, Repr

/-- `DefaultWrapperConfig` in `wrapper.go` (2 s retry delay in ns). -/
def DefaultWrapperConfig : WrapperConfig where
  preUploadValidation := true
  validateResponses := true
  autoRetry := true
  maxRetries := 3
  retryDelay := 2000000000
  enhanceResponses := true
  checkCapabilities := true

/-- The provider adapter contract the wrapper decorates (`Provider` in
`internal/providers/wrapper.go`).  `upload` consumes and returns the
stream/provider state `σ` (the Go code hands the provider a mutable
`io.Reader`); its result is the Go pair `(*ProviderResponse, error)`. -/
structure Provider (σ : Type) where
  name : String
  upload : σ → σ × (Option ProviderResponse × Option GoError)
  validateFile : String → Int → Option GoError
  getMaxFileSize : Int
  getSupportedExtensions : List String

/-- `ConsistencyWrapper` in `wrapper.go`. -/
structure ConsistencyWrapper (σ : Type) where
  provider : Provider σ
  config : WrapperConfig

/-- `getFileExtension` in `wrapper.go`: lowercased suffix from the last dot
(inclusive), empty when there is no dot or the dot is the final character. -/
def getFileExtension (filePath : String) : String :=
  let cs := filePath.data
  match lastDotIndex cs with
  | none => ""
  | some i =>
      if i < cs.length - 1 then String.mk ((cs.drop i).map Char.toLower) else ""
where
  /-- `strings.LastIndex(filePath, ".")` on the character list. -/
  lastDotIndex : List Char → Option Nat
    | [] => none
    | c :: rest =>
        match lastDotIndex rest with
        | some i => some (i + 1)
        | none => if c = '.' then some 0 else none

/-- Go `%v` rendering of a string slice, used in the unsupported-extension
message. -/
def goSliceFmt (xs : List String) : String :=
  "[" ++ String.intercalate " " xs ++ "]"

/-- `validateUploadCapability` in `wrapper.go`: capability checks (size
limit, then supported extensions) only when `checkCapabilities` is set,
then the adapter's own `ValidateFile`. -/
def ConsistencyWrapper.validateUploadCapability {σ : Type}
    (cw : ConsistencyWrapper σ) (filePath : String) (size : Int) :
    Option GoError :=
  if cw.config.checkCapabilities then
    let maxSize := cw.provider.getMaxFileSize
    if 0 < maxSize ∧ maxSize < size then
      some (NewFileTooLargeError
        ("file size " ++ toString size ++ " bytes exceeds provider " ++
          cw.provider.name ++ " maximum " ++ toString maxSize ++ " bytes")
        none)
    else
      let extensions := cw.provider.getSupportedExtensions
      if 0 < extensions.length then
        if extensions.any (fun ext => ext.toLower = "*") then
          cw.provider.validateFile filePath size
        else
          let fileExt := getFileExtension filePath
          if extensions.any (fun ext => ext.toLower = fileExt) then
            cw.provider.validateFile filePath size
          else
            some (NewUnsupportedError
              ("file extension " ++ fileExt ++ " not supported by provider "
                ++ cw.provider.name ++ ". Supported: " ++ goSliceFmt extensions)
              none)
      else
        cw.provider.validateFile filePath size
  else
    cw.provider.validateFile filePath size

/-- `isRetryableError` in `wrapper.go`: classified kinds decide directly;
unclassified errors fall back to a case-insensitive substring heuristic on
the error message. -/
def ConsistencyWrapper.isRetryableError {σ : Type}
    (_cw : ConsistencyWrapper σ) (err : Option GoError) : Bool :=
  match err with
  | none => false
  | some e =>
      match GetErrorType e with
      | .network | .temporary | .quota => true
      | .api | .authentication | .fileTooLarge | .unsupported => false
      | .unknown =>
          strContains e.errorString.toLower "connection" ||
          strContains e.errorString.toLower "timeout" ||
          strContains e.errorString.toLower "temporary"

/-- Observable outcome of one wrapper upload call.  `response`/`error` are
the Go return pair; `finalState` is the stream/provider state after the
call.  The remaining fields are instrumentation of the embedding used to
state the claims: `calls` counts inner-provider `Upload` invocations,
`startStates` records the state each invocation began from, and `waits`
records, in order, the delay slept before each retry attempt. -/
structure UploadOutcome (σ : Type) where
  response : Option ProviderResponse
  error : Option GoError
  finalState : σ
  calls : Nat
  startStates : List σ
  waits : List Nat

/-- `context.Canceled`. -/
def contextCanceled : GoError := .plain "context canceled"

/-- The loop body of `uploadWithRetry` in `wrapper.go`, as recursion on the
remaining loop iterations (`fuel`; the Go loop runs `attempt` from `0` to
`MaxRetries`, so it starts with `maxRetries + 1` fuel).  `ctxDone n` tells
whether the context is already cancelled when attempt `n`'s pre-wait
select runs.  Before attempt `n > 0` the loop sleeps
`retryDelay * (n - 1)`; a non-retryable error or a success returns
immediately; exhausting the loop returns the `Temporary` error built from
`MaxRetries + 1`. -/
def retryLoop {σ : Type} (cw : ConsistencyWrapper σ) (ctxDone : Nat → Bool) :
    Nat → Nat → Option GoError → σ → UploadOutcome σ
  | 0, _attempt, lastError, s =>
      { response := none
        error := some (NewTemporaryError
          ("all " ++ toString (cw.config.maxRetries + 1) ++ " retry attempts failed")
          lastError)
        finalState := s, calls := 0, startStates := [], waits := [] }
  | fuel + 1, attempt, _lastError, s =>
      if 0 < attempt ∧ ctxDone attempt = true then
        { response := none
          error := some (NewTemporaryError "context cancelled during retry"
            (some contextCanceled))
          finalState := s, calls := 0, startStates := [], waits := [] }
      else
        let waits0 : List Nat :=
          if 0 < attempt then [cw.config.retryDelay * (attempt - 1)] else []
        match ((cw.provider.upload s).2).2 with
        | none =>
            { response := ((cw.provider.upload s).2).1
              error := none
              finalState := (cw.provider.upload s).1
              calls := 1, startStates := [s], waits := waits0 }
        | some e =>
            if cw.isRetryableError (some e) then
              let rest := retryLoop cw ctxDone fuel (attempt + 1) (some e)
                (cw.provider.upload s).1
              { response := rest.response
                error := rest.error
                finalState := rest.finalState
                calls := rest.calls + 1
                startStates := s :: rest.startStates
                waits := waits0 ++ rest.waits }
            else
              { response := none
                error := some e
                finalState := (cw.provider.upload s).1
                calls := 1, startStates := [s], waits := waits0 }

/-- `uploadWithRetry` in `wrapper.go`. -/
def ConsistencyWrapper.uploadWithRetry {σ : Type} (cw : ConsistencyWrapper σ)
    (ctxDone : Nat → Bool) (s : σ) : UploadOutcome σ :=
  retryLoop cw ctxDone (cw.config.maxRetries + 1) 0 none s

/-- One plain provider call (the `AutoRetry`-disabled branch of `Upload`). -/
def ConsistencyWrapper.singleUpload {σ : Type} (cw : ConsistencyWrapper σ)
    (s : σ) : UploadOutcome σ :=
  { response := ((cw.provider.upload s).2).1
    error := ((cw.provider.upload s).2).2
    finalState := (cw.provider.upload s).1
    calls := 1, startStates := [s], waits := [] }

/-- The upload phase of `Upload` in `wrapper.go`: retry loop when
`AutoRetry` is enabled, a single provider call otherwise. -/
def ConsistencyWrapper.uploadPhase {σ : Type} (cw : ConsistencyWrapper σ)
    (ctxDone : Nat → Bool) (s : σ) : UploadOutcome σ :=
  if cw.config.autoRetry then cw.uploadWithRetry ctxDone s
  else cw.singleUpload s

/-- Go map assignment `m[k] = v` on an association list. -/
def mapSet (m : List (String × String)) (k v : String) :
    List (String × String) :=
  if m.any (fun kv => kv.1 = k) then
    m.map (fun kv => if kv.1 = k then (k, v) else kv)
  else m ++ [(k, v)]

/-- `addMetadata` in `wrapper.go`.  `now` is the RFC3339 rendering of
`time.Now()`, passed in explicitly. -/
def ConsistencyWrapper.addMetadata {σ : Type} (cw : ConsistencyWrapper σ)
    (now : String) (response : ProviderResponse) (filePath : String)
    (size : Int) : ProviderResponse :=
  let m0 := response.metadata.getD []
  let m1 := mapSet m0 "wrapper_provider" cw.provider.name
  let m2 := mapSet m1 "wrapper_version" "1.0"
  let m3 := mapSet m2 "upload_timestamp" now
  let m4 := mapSet m3 "original_filepath" filePath
  let m5 := mapSet m4 "upload_size" (toString size)
  let r := { response with metadata := some m5 }
  if r.url = "" ∧ r.downloadURL ≠ "" then { r with url := r.downloadURL }
  else r

/-- `validateResponse` in `wrapper.go` (defined on the possibly-nil
response pointer). -/
def ConsistencyWrapper.validateResponse {σ : Type}
    (_cw : ConsistencyWrapper σ) (response : Option ProviderResponse) :
    Option GoError :=
  match response with
  | none => some (NewAPIError "NULL_RESPONSE" "provider returned null response" none)
  | some r =>
      if r.url = "" then
        some (NewAPIError "MISSING_URL" "provider response missing download URL" none)
      else none

/-- The post-upload part of `Upload` in `wrapper.go` (lines 126–141):
metadata enhancement when there is no error and a response is present,
then response validation under the same guard; on a validation error the
(enhanced) response is returned together with that error. -/
def ConsistencyWrapper.postProcess {σ : Type} (cw : ConsistencyWrapper σ)
    (now filePath : String) (size : Int) (t : UploadOutcome σ) :
    UploadOutcome σ :=
  let response :=
    if t.error.isNone ∧ cw.config.enhanceResponses ∧ t.response.isSome then
      t.response.map (fun r => cw.addMetadata now r filePath size)
    else t.response
  if t.error.isNone ∧ cw.config.validateResponses ∧ response.isSome then
    match cw.validateResponse response with
    | some vErr => { t with response := response, error := some vErr }
    | none => { t with response := response }
  else { t with response := response }

/-- `Upload` in `wrapper.go`: optional pre-upload validation, upload with
optional retry, then optional enhancement and response validation. -/
def ConsistencyWrapper.Upload {σ : Type} (cw : ConsistencyWrapper σ)
    (ctxDone : Nat → Bool) (now filePath : String) (size : Int) (s : σ) :
    UploadOutcome σ :=
  if cw.config.preUploadValidation then
    match cw.validateUploadCapability filePath size with
    | some err =>
        { response := none, error := some err, finalState := s
          calls := 0, startStates := [], waits := [] }
    | none => cw.postProcess now filePath size (cw.uploadPhase ctxDone s)
  else cw.postProcess now filePath size (cw.uploadPhase ctxDone s)

/-! ## The upload pool engine (`internal/uploader/pool.go`, current
logging-instrumented revision) -/

/-- `FileInfo` in `internal/uploader/uploader.go` (the modification
timestamp carries no engine logic and is omitted). -/
structure FileInfo where
  path : String
  name : String
  size : Int
  isDir : Bool
deriving DecidableEq, Repr

/-- The engine-level `Provider` interface in `uploader.go`:
`Upload(ctx, filePath, file, size) (string, error)`.  The reader handed to
the provider is embedded as an explicit position state (`Nat`, the stream
offset the provider starts reading at); `upload pos` returns the position
the provider leaves the stream at plus the Go pair `(url, error)`. -/
structure EngineProvider where
  name : String
  upload : Nat → Nat × (String × Option GoError)

/-- `UploadResult` in `uploader.go` (the duration and completion timestamp
are wall-clock observations with no logic on them and are omitted). -/
structure UploadResult where
  fileName : String := ""
  filePath : String := ""
  size : Int := 0
  url : String := ""
  provider : String := ""
  error : Option GoError := none

/-- `fmt.Errorf(pre ++ "%w", err)`: wraps `err`, rendering the Go nil-error
case the way the `fmt` package does. -/
def goWrapOpt (pre : String) : Option GoError → GoError
  | some e => .wrapped (pre ++ e.errorString) e
  | none => .plain (pre ++ "%!w(<nil>)")

/-- Observable outcome of `uploadFile`: the results sent on the result
channel, plus instrumentation of the embedding — the names of the
providers invoked, in order, and the stream position each provider
invocation started reading from. -/
structure UploadFileOutcome where
  results : List UploadResult
  invoked : List String
  startPositions : List Nat

/-- The provider-fallback loop of `uploadFile` in `pool.go` (run without
cancellation; `Seek(0, io.SeekStart)` on the open file succeeds, so every
provider call starts at stream position `0`).  On an error the provider's
error becomes the last error and the loop advances; on a success exactly
one success result is emitted and the loop stops; when the providers are
exhausted exactly one failure result is emitted, wrapping the last
error. -/
def uploadFileLoop (fileInfo : FileInfo) :
    List EngineProvider → Option GoError → UploadFileOutcome
  | [], lastErr =>
      { results := [{ fileName := fileInfo.name, filePath := fileInfo.path
                      error := some (goWrapOpt "all providers failed, last error: " lastErr) }]
        invoked := [], startPositions := [] }
  | p :: rest, _lastErr =>
      match ((p.upload 0).2).2 with
      | some e =>
          let o := uploadFileLoop fileInfo rest (some e)
          { results := o.results
            invoked := p.name :: o.invoked
            startPositions := 0 :: o.startPositions }
      | none =>
          { results := [{ fileName := fileInfo.name, filePath := fileInfo.path
                          size := fileInfo.size
                          url := ((p.upload 0).2).1
                          provider := p.name }]
            invoked := [p.name], startPositions := [0] }

/-- `uploadFile` in `pool.go`: when opening the file fails, one failure
result is emitted and no provider is tried; otherwise the fallback loop
runs with no last error yet. -/
def uploadFile (fileInfo : FileInfo) (openErr : Option GoError)
    (providers : List EngineProvider) : UploadFileOutcome :=
  match openErr with
  | some e =>
      { results := [{ fileName := fileInfo.name, filePath := fileInfo.path
                      error := some (.wrapped ("failed to open file: " ++ e.errorString) e) }]
        invoked := [], startPositions := [] }
  | none => uploadFileLoop fileInfo providers none

/-- One delivery observed by the dispatch loop's `select`: a discovered
file (with the outcome of the engine's subsequent `os.Open`), or a non-nil
scan error from the error channel. -/
inductive ScanEvent where
  | file (fileInfo : FileInfo) (openErr : Option GoError)
  | scanErr (e : GoError)

/-- The dispatch loop of `Upload` in `pool.go` under a sequential schedule
(each launched upload completes before the next channel delivery; no
cancellation): directories are skipped, every other discovered file is
uploaded through the provider fallback, and a non-nil scan error is
converted into a result entry carrying only the wrapped error, after which
the loop continues. -/
def processEvents (providers : List EngineProvider) :
    List ScanEvent → List UploadResult
  | [] => []
  | .scanErr e :: rest =>
      { error := some (.wrapped ("scan error: " ++ e.errorString) e) }
        :: processEvents providers rest
  | .file fileInfo openErr :: rest =>
      if fileInfo.isDir then processEvents providers rest
      else (uploadFile fileInfo openErr providers).results
            ++ processEvents providers rest

/-! ## Progress computation (`progressReader` in `pool.go`)

The percentage is computed in Go `float64` arithmetic.  `GoFloat` models
the fragment of IEEE-754 the progress callback can reach: finite values
are idealised as exact rationals (no rounding — the zero-size-file
boundary only exercises exact values), while the zero-divisor, infinity
and NaN cases follow the IEEE-754 special-value rules exactly. -/

inductive GoFloat where
  | num (q : ℚ)
  | nan
  | inf
  | neginf
deriving DecidableEq, Repr

/-- IEEE-754 division on `GoFloat` (finite quotients idealised as exact):
`0/0` and `±∞/±∞` are NaN, `x/0` for finite nonzero `x` is a signed
infinity. -/
def GoFloat.div : GoFloat → GoFloat → GoFloat
  | .num a, .num b =>
      if b = 0 then
        if a = 0 then .nan else if 0 < a then .inf else .neginf
      else .num (a / b)
  | .nan, _ => .nan
  | _, .nan => .nan
  | .inf, .num b => if 0 ≤ b then .inf else .neginf
  | .neginf, .num b => if 0 ≤ b then .neginf else .inf
  | .inf, .inf => .nan
  | .inf, .neginf => .nan
  | .neginf, .inf => .nan
  | .neginf, .neginf => .nan
  | .num a, .inf => if 0 ≤ a then .num 0 else .num 0
  | .num a, .neginf => if 0 ≤ a then .num 0 else .num 0

/-- IEEE-754 multiplication on `GoFloat` (finite products idealised as
exact): NaN propagates, `±∞ × 0` is NaN. -/
def GoFloat.mul : GoFloat → GoFloat → GoFloat
  | .num a, .num b => .num (a * b)
  | .nan, _ => .nan
  | _, .nan => .nan
  | .inf, .num b => if b = 0 then .nan else if 0 < b then .inf else .neginf
  | .num a, .inf => if a = 0 then .nan else if 0 < a then .inf else .neginf
  | .neginf, .num b => if b = 0 then .nan else if 0 < b then .neginf else .inf
  | .num a, .neginf => if a = 0 then .nan else if 0 < a then .neginf else .inf
  | .inf, .inf => .inf
  | .neginf, .neginf => .inf
  | .inf, .neginf => .neginf
  | .neginf, .inf => .neginf

/-- `ProgressInfo` in `uploader.go` (the engine never sets `Speed`; it
stays the float zero value). -/
structure ProgressInfo where
  fileName : String
  bytesUploaded : Int
  totalBytes : Int
  percentage : GoFloat
  speed : GoFloat := .num 0
deriving DecidableEq, Repr

/-- The percentage computed by the `onProgress` callback in `uploadFile`:
`float64(bytesRead) / float64(fileInfo.Size) * 100`. -/
def progressPercentage (bytesRead totalSize : Int) : GoFloat :=
  (GoFloat.div (.num bytesRead) (.num totalSize)).mul (.num 100)

/-- The sequence of `ProgressInfo` values the `progressReader` callback
builds for one provider attempt, given the byte counts returned by each
`Read` call (the callback runs after every read, including the final
zero-byte read at end of file); `acc` is the running `bytesRead`. -/
def progressEventsFrom (fileName : String) (totalSize : Int) :
    Int → List Nat → List ProgressInfo
  | _, [] => []
  | acc, n :: rest =>
      let acc2 := acc + (n : Int)
      { fileName := fileName, bytesUploaded := acc2, totalBytes := totalSize
        percentage := progressPercentage acc2 totalSize }
        :: progressEventsFrom fileName totalSize acc2 rest

/-- All progress events of one provider attempt (the tracking reader
starts with `bytesRead = 0`). -/
def progressEvents (fileName : String) (totalSize : Int)
    (reads : List Nat) : List ProgressInfo :=
  progressEventsFrom fileName totalSize 0 reads

/-! ## Concrete fixtures used in the closed-instance checks -/

/-- A wrapped provider that fails every attempt with a retryable network
error; retries enabled with two retries and a 5 ns delay. -/
def netFailWrapper : ConsistencyWrapper Unit where
  provider :=
    { name := "netfail"
      upload := fun _ => ((), (none, some (NewNetworkError "connection lost" none)))
      validateFile := fun _ _ => none
      getMaxFileSize := 0
      getSupportedExtensions := [] }
  config :=
    { preUploadValidation := false, validateResponses := false
      autoRetry := true, maxRetries := 2, retryDelay := 5
      enhanceResponses := false, checkCapabilities := false }

/-- A wrapped provider whose upload returns the Go pair `(nil, nil)`:
no response and no error; response validation enabled. -/
def nilRespWrapper : ConsistencyWrapper Unit where
  provider :=
    { name := "nilresp"
      upload := fun _ => ((), (none, none))
      validateFile := fun _ _ => none
      getMaxFileSize := 0
      getSupportedExtensions := [] }
  config :=
    { preUploadValidation := false, validateResponses := true
      autoRetry := false, maxRetries := 0, retryDelay := 0
      enhanceResponses := false, checkCapabilities := false }

/-- A wrapped provider that reports success but hands back a response with
an empty URL (and empty download URL); response validation enabled. -/
def emptyUrlWrapper : ConsistencyWrapper Unit where
  provider :=
    { name := "emptyurl"
      upload := fun _ => ((), (some {}, none))
      validateFile := fun _ _ => none
      getMaxFileSize := 0
      getSupportedExtensions := [] }
  config :=
    { preUploadValidation := false, validateResponses := true
      autoRetry := false, maxRetries := 0, retryDelay := 0
      enhanceResponses := false, checkCapabilities := false }

/-- A wrapped provider advertising a 10-byte size limit, with pre-upload
validation enabled but capability checking disabled. -/
def bigFileWrapperNoCaps : ConsistencyWrapper Unit where
  provider :=
    { name := "small"
      upload := fun _ => ((), (some { url := "https://host/u" }, none))
      validateFile := fun _ _ => none
      getMaxFileSize := 10
      getSupportedExtensions := [] }
  config :=
    { preUploadValidation := true, validateResponses := false
      autoRetry := false, maxRetries := 0, retryDelay := 0
      enhanceResponses := false, checkCapabilities := false }

/-- Like `bigFileWrapperNoCaps` but with capability checking enabled. -/
def bigFileWrapperCaps : ConsistencyWrapper Unit where
  provider := bigFileWrapperNoCaps.provider
  config := { bigFileWrapperNoCaps.config with checkCapabilities := true }

/-- An engine provider that always fails with a network error, leaving the
stream where it found it. -/
def epFail : EngineProvider where
  name := "p1"
  upload := fun pos => (pos, ("", some (NewNetworkError "down" none)))

/-- An engine provider that always fails with a non-retryable API error. -/
def epFail2 : EngineProvider where
  name := "p4"
  upload := fun pos => (pos, ("", some (NewAPIError "E" "bad request" none)))

/-- An engine provider that always succeeds, consuming three bytes. -/
def epOk : EngineProvider where
  name := "p2"
  upload := fun pos => (pos + 3, ("https://ok/x", none))

/-- An engine provider placed after a succeeding one; it must never be
reached. -/
def epNever : EngineProvider where
  name := "p3"
  upload := fun pos => (pos, ("never", none))

/-- A sample discovered file. -/
def sampleFile : FileInfo where
  path := "/tmp/a.txt"
  name := "a.txt"
  size := 42
  isDir := false

/-! ## Helper lemmas -/

/-- `n`-fold iteration of the state transition a provider's upload applies
to the stream/provider state. -/
def stateIter {σ : Type}
    (upload : σ → σ × (Option ProviderResponse × Option GoError)) :
    Nat → σ → σ
  | 0, s => s
  | n + 1, s => stateIter upload n (upload s).1

/-- Closed form of the retry loop against a provider that fails on every
invocation with a retryable error and a context that never cancels:
all `fuel` remaining attempts run, each starting from the state its
predecessor left, the waits follow `retryDelay * (attempt - 1)`, and the
loop ends in the `Temporary` exhaustion error wrapping the last failure. -/
theorem retryLoop_persistent {σ : Type} (cw : ConsistencyWrapper σ)
    (errAt : σ → GoError)
    (hfail : ∀ s, ((cw.provider.upload s).2).2 = some (errAt s))
    (hretry : ∀ s, cw.isRetryableError (some (errAt s)) = true) :
    ∀ (fuel attempt : Nat) (lastErr : Option GoError) (s : σ), 1 ≤ attempt →
      retryLoop cw (fun _ => false) fuel attempt lastErr s =
        { response := none
          error := some (NewTemporaryError
            ("all " ++ toString (cw.config.maxRetries + 1) ++ " retry attempts failed")
            (if fuel = 0 then lastErr
             else some (errAt (stateIter cw.provider.upload (fuel - 1) s))))
          finalState := stateIter cw.provider.upload fuel s
          calls := fuel
          startStates := (List.range fuel).map
            (fun i => stateIter cw.provider.upload i s)
          waits := (List.range fuel).map
            (fun i => cw.config.retryDelay * (attempt - 1 + i)) } := by
  intro fuel
  induction fuel with
  | zero =>
      intro attempt lastErr s _
      simp [retryLoop, stateIter]
  | succ fuel ih =>
      intro attempt lastErr s ha
      rw [retryLoop]
      rw [if_neg (by simp)]
      simp only [hfail, hretry, if_true]
      rw [ih (attempt + 1) (some (errAt s)) (cw.provider.upload s).1 (by omega)]
      have hss : ∀ i, stateIter cw.provider.upload i (cw.provider.upload s).1
          = stateIter cw.provider.upload (i + 1) s := fun i => rfl
      have hposa : (if 0 < attempt then
            [cw.config.retryDelay * (attempt - 1)] else [])
          = [cw.config.retryDelay * (attempt - 1)] := if_pos ha
      simp only [UploadOutcome.mk.injEq]
      refine ⟨by trivial, ?_, hss fuel, by trivial, ?_, ?_⟩
      · -- error field
        cases fuel with
        | zero => simp [stateIter]
        | succ m => simp [hss]
      · -- start states
        rw [List.range_succ_eq_map, List.map_cons, List.map_map]
        refine congrArg₂ _ rfl (List.map_congr_left fun i _ => hss i)
      · -- waits
        rw [hposa, List.range_succ_eq_map, List.map_cons, List.map_map,
          List.singleton_append]
        refine congrArg₂ _ (by simp) (List.map_congr_left fun i _ => ?_)
        simp only [Function.comp_apply]
        refine congrArg _ ?_
        omega

/-- Closed form of `uploadWithRetry` against a persistently failing
retryable provider with a never-cancelled context: all `maxRetries + 1`
attempts run, the waits are `retryDelay * 0, retryDelay * 1, …`, and the
result is the `Temporary` exhaustion error wrapping the error of the last
attempt. -/
theorem uploadWithRetry_persistent {σ : Type} (cw : ConsistencyWrapper σ)
    (errAt : σ → GoError)
    (hfail : ∀ s, ((cw.provider.upload s).2).2 = some (errAt s))
    (hretry : ∀ s, cw.isRetryableError (some (errAt s)) = true) (s : σ) :
    cw.uploadWithRetry (fun _ => false) s =
      { response := none
        error := some (NewTemporaryError
          ("all " ++ toString (cw.config.maxRetries + 1) ++ " retry attempts failed")
          (some (errAt (stateIter cw.provider.upload cw.config.maxRetries s))))
        finalState := stateIter cw.provider.upload (cw.config.maxRetries + 1) s
        calls := cw.config.maxRetries + 1
        startStates := (List.range (cw.config.maxRetries + 1)).map
          (fun i => stateIter cw.provider.upload i s)
        waits := (List.range cw.config.maxRetries).map
          (fun i => cw.config.retryDelay * i) } := by
  unfold ConsistencyWrapper.uploadWithRetry
  rw [retryLoop]
  rw [if_neg (by simp)]
  simp only [hfail, hretry, if_true]
  rw [retryLoop_persistent cw errAt hfail hretry cw.config.maxRetries 1
    (some (errAt s)) (cw.provider.upload s).1 (by omega)]
  have hss : ∀ i, stateIter cw.provider.upload i (cw.provider.upload s).1
      = stateIter cw.provider.upload (i + 1) s := fun i => rfl
  simp only [UploadOutcome.mk.injEq]
  refine ⟨by trivial, ?_, hss _, by trivial, ?_, ?_⟩
  · -- error field
    cases hr : cw.config.maxRetries with
    | zero => simp [stateIter]
    | succ m => simp [hss]
  · -- start states
    rw [List.range_succ_eq_map, List.map_cons, List.map_map]
    refine congrArg₂ _ rfl (List.map_congr_left fun i _ => hss i)
  · -- waits
    simp

/-- With fuel left and a never-cancelled context the retry loop always
invokes the provider at least once. -/
theorem retryLoop_calls_pos {σ : Type} (cw : ConsistencyWrapper σ)
    (fuel attempt : Nat) (lastErr : Option GoError) (s : σ) (hf : 0 < fuel) :
    1 ≤ (retryLoop cw (fun _ => false) fuel attempt lastErr s).calls := by
  cases fuel with
  | zero => omega
  | succ m =>
      rw [retryLoop, if_neg (by simp)]
      cases hE : ((cw.provider.upload s).2).2 with
      | none => simp [hE]
      | some e =>
          simp only [hE]
          by_cases hR : cw.isRetryableError (some e) = true
          · rw [if_pos hR]; simp
          · rw [if_neg hR]

/-- For every provider, context and initial state, the retry loop threads
the stream/provider state: invocation `i` starts from the `i`-fold iterate
of the provider's own state transition on the loop's initial state — the
loop inserts no rewind or reset between attempts. -/
theorem retryLoop_startStates {σ : Type} (cw : ConsistencyWrapper σ)
    (ctxDone : Nat → Bool) :
    ∀ (fuel attempt : Nat) (lastErr : Option GoError) (s : σ),
      (retryLoop cw ctxDone fuel attempt lastErr s).startStates
        = (List.range (retryLoop cw ctxDone fuel attempt lastErr s).calls).map
            (fun i => stateIter cw.provider.upload i s) := by
  intro fuel
  induction fuel with
  | zero =>
      intro attempt lastErr s
      simp [retryLoop]
  | succ fuel ih =>
      intro attempt lastErr s
      rw [retryLoop]
      by_cases hc : 0 < attempt ∧ ctxDone attempt = true
      · rw [if_pos hc]
        simp
      · rw [if_neg hc]
        cases hE : ((cw.provider.upload s).2).2 with
        | none => simp [hE, stateIter, List.range_succ]
        | some e =>
            simp only [hE]
            by_cases hR : cw.isRetryableError (some e) = true
            · rw [if_pos hR]
              have hss : ∀ i,
                  stateIter cw.provider.upload i (cw.provider.upload s).1
                    = stateIter cw.provider.upload (i + 1) s := fun i => rfl
              simp only []
              rw [ih (attempt + 1) (some e) (cw.provider.upload s).1]
              rw [List.range_succ_eq_map, List.map_cons, List.map_map]
              refine congrArg₂ _ (by simp [stateIter]) ?_
              exact List.map_congr_left fun i _ => hss i
            · rw [if_neg hR]
              simp [stateIter, List.range_succ]

/-- Fallback closed form: when every provider of `pre` fails and `pk`
succeeds with URL `u`, the loop emits exactly the success result for `pk`
and invokes exactly `pre`'s providers followed by `pk` — never the
providers after `pk`. -/
theorem uploadFileLoop_fallback (fi : FileInfo) (pk : EngineProvider)
    (u : String) (endPos : Nat) (hsucc : pk.upload 0 = (endPos, (u, none))) :
    ∀ (pre : List EngineProvider) (post : List EngineProvider)
      (lastErr : Option GoError),
      (∀ p ∈ pre, (((p.upload 0).2).2).isSome = true) →
      uploadFileLoop fi (pre ++ pk :: post) lastErr =
        { results := [{ fileName := fi.name, filePath := fi.path
                        size := fi.size, url := u, provider := pk.name }]
          invoked := pre.map (fun p => p.name) ++ [pk.name]
          startPositions := List.replicate (pre.length + 1) 0 } := by
  intro pre
  induction pre with
  | nil =>
      intro post lastErr _
      simp only [List.nil_append]
      rw [uploadFileLoop]
      rw [hsucc]
      rfl
  | cons p pre ih =>
      intro post lastErr hfailed
      obtain ⟨e, he⟩ := Option.isSome_iff_exists.mp
        (hfailed p (List.mem_cons_self p pre))
      have hrest := ih post (some e)
        (fun q hq => hfailed q (List.mem_cons_of_mem p hq))
      simp only [List.cons_append]
      rw [uploadFileLoop]
      rw [he]
      simp [hrest, List.replicate_succ]

/-- Exhaustion closed form: when every provider fails, the loop emits
exactly one failure result, wrapping the last provider's error, with empty
URL and provider fields. -/
theorem uploadFileLoop_exhausted (fi : FileInfo) (plast : EngineProvider)
    (elast : GoError) (hlast : ((plast.upload 0).2).2 = some elast) :
    ∀ (pre : List EngineProvider) (lastErr : Option GoError),
      (∀ p ∈ pre, (((p.upload 0).2).2).isSome = true) →
      uploadFileLoop fi (pre ++ [plast]) lastErr =
        { results := [{ fileName := fi.name, filePath := fi.path
                        error := some (.wrapped
                          ("all providers failed, last error: " ++ elast.errorString)
                          elast) }]
          invoked := pre.map (fun p => p.name) ++ [plast.name]
          startPositions := List.replicate (pre.length + 1) 0 } := by
  intro pre
  induction pre with
  | nil =>
      intro lastErr _
      simp only [List.nil_append]
      rw [uploadFileLoop]
      rw [hlast]
      simp [uploadFileLoop, goWrapOpt]
  | cons p pre ih =>
      intro lastErr hfailed
      obtain ⟨e, he⟩ := Option.isSome_iff_exists.mp
        (hfailed p (List.mem_cons_self p pre))
      have hrest := ih (some e)
        (fun q hq => hfailed q (List.mem_cons_of_mem p hq))
      simp only [List.cons_append]
      rw [uploadFileLoop]
      rw [he]
      simp [hrest, List.replicate_succ]

/-- Every provider invocation in the engine's fallback loop starts at
stream position `0`: the engine seeks the file back to its start before
each provider. -/
theorem uploadFileLoop_startPositions (fi : FileInfo) :
    ∀ (ps : List EngineProvider) (lastErr : Option GoError),
      ∀ pos ∈ (uploadFileLoop fi ps lastErr).startPositions, pos = 0 := by
  intro ps
  induction ps with
  | nil =>
      intro lastErr pos hpos
      simp [uploadFileLoop] at hpos
  | cons p ps ih =>
      intro lastErr pos hpos
      rw [uploadFileLoop] at hpos
      cases hE : ((p.upload 0).2).2 with
      | none =>
          rw [hE] at hpos
          simp at hpos
          exact hpos
      | some e =>
          rw [hE] at hpos
          simp at hpos
          rcases hpos with h | h
          · exact h
          · exact ih (some e) pos h

/-- When pre-upload validation is disabled or passes, `Upload` is the
upload phase followed by post-processing. -/
theorem Upload_eq_postProcess {σ : Type} (cw : ConsistencyWrapper σ)
    (ctxDone : Nat → Bool) (now filePath : String) (size : Int) (s : σ)
    (hpre : cw.config.preUploadValidation = false ∨
      cw.validateUploadCapability filePath size = none) :
    cw.Upload ctxDone now filePath size s
      = cw.postProcess now filePath size (cw.uploadPhase ctxDone s) := by
  unfold ConsistencyWrapper.Upload
  rcases hpre with h | h
  · rw [h]
    simp
  · by_cases hp : cw.config.preUploadValidation = true
    · rw [if_pos hp, h]
    · rw [if_neg hp]

/-- When pre-upload validation is enabled and rejects the file, `Upload`
returns that error without invoking the provider at all. -/
theorem Upload_of_validationError {σ : Type} (cw : ConsistencyWrapper σ)
    (ctxDone : Nat → Bool) (now filePath : String) (size : Int) (s : σ)
    (e : GoError) (hp : cw.config.preUploadValidation = true)
    (hv : cw.validateUploadCapability filePath size = some e) :
    cw.Upload ctxDone now filePath size s =
      { response := none, error := some e, finalState := s
        calls := 0, startStates := [], waits := [] } := by
  unfold ConsistencyWrapper.Upload
  rw [if_pos hp, hv]

/-- Post-processing leaves a failed upload outcome unchanged: neither
enhancement nor response validation runs when the upload phase errored. -/
theorem postProcess_of_error {σ : Type} (cw : ConsistencyWrapper σ)
    (now filePath : String) (size : Int) (t : UploadOutcome σ) (e : GoError)
    (h : t.error = some e) :
    cw.postProcess now filePath size t = t := by
  unfold ConsistencyWrapper.postProcess
  rw [h]
  simp
  rw [← h]

/-- Metadata enhancement cannot conjure a URL: with both the URL and the
download URL empty, the enhanced response's URL is still empty. -/
theorem addMetadata_url_empty {σ : Type} (cw : ConsistencyWrapper σ)
    (now : String) (r : ProviderResponse) (filePath : String) (size : Int)
    (h1 : r.url = "") (h2 : r.downloadURL = "") :
    (cw.addMetadata now r filePath size).url = "" := by
  unfold ConsistencyWrapper.addMetadata
  simp [h1, h2]

/-- An error classified as `Network`, `Temporary` or `Quota` is retryable. -/
theorem isRetryable_of_kind {σ : Type} (cw : ConsistencyWrapper σ)
    (e : GoError)
    (h : GetErrorType e = .network ∨ GetErrorType e = .temporary ∨
      GetErrorType e = .quota) :
    cw.isRetryableError (some e) = true := by
  rcases h with h | h | h <;> simp [ConsistencyWrapper.isRetryableError, h]

/-- Post-processing with response validation enabled rejects a present
response whose URL is empty and cannot be backfilled (empty download URL),
with the `MISSING_URL` API error. -/
theorem postProcess_missing_url {σ : Type} (cw : ConsistencyWrapper σ)
    (now filePath : String) (size : Int) (t : UploadOutcome σ)
    (r : ProviderResponse) (hvr : cw.config.validateResponses = true)
    (he : t.error = none) (hr : t.response = some r)
    (hu : r.url = "") (hd : r.downloadURL = "") :
    (cw.postProcess now filePath size t).error =
      some (NewAPIError "MISSING_URL" "provider response missing download URL"
        none) := by
  unfold ConsistencyWrapper.postProcess
  rw [he, hr]
  by_cases hE : cw.config.enhanceResponses = true
  · simp [hE, hvr, ConsistencyWrapper.validateResponse,
      addMetadata_url_empty cw now r filePath size hu hd]
  · simp [hE, hvr, hu, ConsistencyWrapper.validateResponse]

/-- Post-processing passes an error-free, response-free outcome through
unchanged: with no response present, response validation never runs. -/
theorem postProcess_nil_response {σ : Type} (cw : ConsistencyWrapper σ)
    (now filePath : String) (size : Int) (t : UploadOutcome σ)
    (he : t.error = none) (hr : t.response = none) :
    (cw.postProcess now filePath size t).error = none ∧
    (cw.postProcess now filePath size t).response = none := by
  unfold ConsistencyWrapper.postProcess
  rw [he, hr]
  simp

/-- When the size and extension capability checks pass, capability
validation is exactly the adapter's own `ValidateFile`. -/
theorem validateUploadCapability_delegates {σ : Type}
    (cw : ConsistencyWrapper σ) (filePath : String) (size : Int)
    (hc : cw.config.checkCapabilities = true)
    (hsize : ¬(0 < cw.provider.getMaxFileSize ∧
      cw.provider.getMaxFileSize < size))
    (hext : cw.provider.getSupportedExtensions = [] ∨
      (∃ ext ∈ cw.provider.getSupportedExtensions, ext.toLower = "*") ∨
      (∃ ext ∈ cw.provider.getSupportedExtensions,
        ext.toLower = getFileExtension filePath)) :
    cw.validateUploadCapability filePath size
      = cw.provider.validateFile filePath size := by
  unfold ConsistencyWrapper.validateUploadCapability
  rw [if_pos hc, if_neg hsize]
  rcases hext with h | h | h
  · rw [h]
    simp
  · obtain ⟨x, hx, hxw⟩ := h
    have hlen : 0 < cw.provider.getSupportedExtensions.length :=
      List.length_pos.mpr (List.ne_nil_of_mem hx)
    rw [if_pos hlen,
      if_pos (List.any_eq_true.mpr ⟨x, hx, by simp [hxw]⟩)]
  · obtain ⟨x, hx, hxm⟩ := h
    have hlen : 0 < cw.provider.getSupportedExtensions.length :=
      List.length_pos.mpr (List.ne_nil_of_mem hx)
    rw [if_pos hlen]
    by_cases hw : cw.provider.getSupportedExtensions.any
        (fun ext => ext.toLower = "*") = true
    · rw [if_pos hw]
    · rw [if_neg hw,
        if_pos (List.any_eq_true.mpr ⟨x, hx, by simp [hxm]⟩)]

/-! ## The claims -/

/-- C1: With auto-retry enabled and `max_retries = r`, a provider whose
upload fails on every attempt with a retryable-kind error is invoked
exactly `r + 1` times by the wrapper's `Upload`, and the wrapper then
returns a `Temporary`-kind error wrapping the last underlying provider
error, with a message stating how many attempts were made
(`all r+1 retry attempts failed`). -/
theorem claim_C1_retry_bound {σ : Type} (cw : ConsistencyWrapper σ)
    (errAt : σ → GoError) (now filePath : String) (size : Int) (s : σ)
    (hauto : cw.config.autoRetry = true)
    (hpre : cw.config.preUploadValidation = false ∨
      cw.validateUploadCapability filePath size = none)
    (hfail : ∀ t, ((cw.provider.upload t).2).2 = some (errAt t))
    (hkind : ∀ t, GetErrorType (errAt t) = .network ∨
      GetErrorType (errAt t) = .temporary ∨ GetErrorType (errAt t) = .quota) :
    (cw.Upload (fun _ => false) now filePath size s).calls
        = cw.config.maxRetries + 1 ∧
    (cw.Upload (fun _ => false) now filePath size s).error =
      some (NewTemporaryError
        ("all " ++ toString (cw.config.maxRetries + 1) ++ " retry attempts failed")
        (some (errAt (stateIter cw.provider.upload cw.config.maxRetries s)))) := by
  have hretry : ∀ t, cw.isRetryableError (some (errAt t)) = true :=
    fun t => isRetryable_of_kind cw (errAt t) (hkind t)
  have hphase : cw.uploadPhase (fun _ => false) s
      = cw.uploadWithRetry (fun _ => false) s := by
    unfold ConsistencyWrapper.uploadPhase
    rw [if_pos hauto]
  have hU : cw.Upload (fun _ => false) now filePath size s
      = cw.uploadWithRetry (fun _ => false) s := by
    rw [Upload_eq_postProcess cw (fun _ => false) now filePath size s hpre,
      hphase]
    rw [uploadWithRetry_persistent cw errAt hfail hretry s]
    exact postProcess_of_error cw now filePath size _ _ rfl
  rw [hU, uploadWithRetry_persistent cw errAt hfail hretry s]
  exact ⟨rfl, rfl⟩

/-- C1 witness: the concrete network-failing fixture with `max_retries = 2`
is invoked 3 times and yields the exhaustion error. -/
theorem claim_C1_retry_bound_witness :
    (netFailWrapper.Upload (fun _ => false) "t" "/tmp/a.txt" 5 ()).calls = 3 ∧
    (netFailWrapper.Upload (fun _ => false) "t" "/tmp/a.txt" 5 ()).error =
      some (NewTemporaryError "all 3 retry attempts failed"
        (some (NewNetworkError "connection lost" none))) := by
  have h := claim_C1_retry_bound netFailWrapper
    (fun _ => NewNetworkError "connection lost" none) "t" "/tmp/a.txt" 5 ()
    rfl (Or.inl rfl) (fun _ => rfl) (fun _ => Or.inl rfl)
  exact ⟨h.1, h.2⟩

/-- C2 counterexample: with `retry_delay = 5` and a persistently failing
retryable provider, the waits actually slept are `[0, 5]` — the wait
before the first retry is `0`, not `1 × retry_delay` as the claim's
parenthetical asserts. -/
theorem claim_C2_counterexample :
    (netFailWrapper.uploadWithRetry (fun _ => false) ()).waits = [0, 5] ∧
    ¬ (netFailWrapper.uploadWithRetry (fun _ => false) ()).waits.get? 0
        = some (1 * netFailWrapper.config.retryDelay) := by
  exact ⟨rfl, by decide⟩

/-- C2 (amended): in the retry loop with retry delay `d`, retry attempt
`n` (n ≥ 1) waits `d × (n − 1)` before executing — so the first retry
waits `0` and the second retry waits `1 × d` (linear backoff tied to the
attempt index, starting at zero). -/
theorem claim_C2_amended {σ : Type} (cw : ConsistencyWrapper σ)
    (errAt : σ → GoError) (s : σ) (n : Nat)
    (hfail : ∀ t, ((cw.provider.upload t).2).2 = some (errAt t))
    (hkind : ∀ t, GetErrorType (errAt t) = .network ∨
      GetErrorType (errAt t) = .temporary ∨ GetErrorType (errAt t) = .quota)
    (h1 : 1 ≤ n) (h2 : n ≤ cw.config.maxRetries) :
    (cw.uploadWithRetry (fun _ => false) s).waits.get? (n - 1)
      = some (cw.config.retryDelay * (n - 1)) := by
  rw [uploadWithRetry_persistent cw errAt hfail
    (fun t => isRetryable_of_kind cw (errAt t) (hkind t)) s]
  rw [List.get?_map, List.get?_range (by omega)]
  rfl

/-- C2 amended witness: at the fixture (`retry_delay = 5`), the wait
recorded before the second retry is `5 × 1 = 5`. -/
theorem claim_C2_amended_witness :
    (netFailWrapper.uploadWithRetry (fun _ => false) ()).waits.get? 1
      = some 5 := by
  have h := claim_C2_amended netFailWrapper
    (fun _ => NewNetworkError "connection lost" none) () 2
    (fun _ => rfl) (fun _ => Or.inl rfl) (by decide) (by decide)
  exact h

/-- C3: if providers `1..k−1` each fail and provider `k` succeeds, the
engine emits exactly the success result carrying provider `k`'s name and
URL, and invokes exactly providers `1..k` — the providers after `k` are
never invoked. -/
theorem claim_C3_fallback_order (fi : FileInfo)
    (pre post : List EngineProvider) (pk : EngineProvider) (u : String)
    (endPos : Nat)
    (hfailed : ∀ p ∈ pre, (((p.upload 0).2).2).isSome = true)
    (hsucc : pk.upload 0 = (endPos, (u, none))) :
    (uploadFile fi none (pre ++ pk :: post)).results
        = [{ fileName := fi.name, filePath := fi.path, size := fi.size
             url := u, provider := pk.name }] ∧
    (uploadFile fi none (pre ++ pk :: post)).invoked
        = pre.map (fun p => p.name) ++ [pk.name] := by
  have hu : uploadFile fi none (pre ++ pk :: post)
      = uploadFileLoop fi (pre ++ pk :: post) none := rfl
  rw [hu, uploadFileLoop_fallback fi pk u endPos hsucc pre post none hfailed]
  exact ⟨rfl, rfl⟩

/-- C3 witness: provider `p1` fails, `p2` succeeds, `p3` is configured
after `p2` — the result names `p2` and only `p1, p2` are invoked. -/
theorem claim_C3_fallback_order_witness :
    (uploadFile sampleFile none [epFail, epOk, epNever]).results
        = [{ fileName := "a.txt", filePath := "/tmp/a.txt", size := 42
             url := "https://ok/x", provider := "p2" }] ∧
    (uploadFile sampleFile none [epFail, epOk, epNever]).invoked
        = ["p1", "p2"] := by
  have h := claim_C3_fallback_order sampleFile [epFail] [epNever] epOk
    "https://ok/x" 3 (fun p hp => by rw [List.mem_singleton.mp hp]; rfl) rfl
  exact ⟨h.1, h.2⟩

/-- C4: a scan error never aborts the stream — it becomes one result entry
carrying only the wrapped error (all other fields at their zero values,
in particular an empty file name), and the events before and after it are
processed exactly as they would be on their own. -/
theorem claim_C4_scan_error_isolated (providers : List EngineProvider)
    (pre post : List ScanEvent) (e : GoError) :
    processEvents providers (pre ++ ScanEvent.scanErr e :: post)
      = processEvents providers pre
        ++ ({ error := some (.wrapped ("scan error: " ++ e.errorString) e) }
              : UploadResult)
        :: processEvents providers post := by
  induction pre with
  | nil => simp [processEvents]
  | cons ev rest ih =>
      cases ev with
      | scanErr e2 => simp [processEvents, ih]
      | file fi oe =>
          by_cases hd : fi.isDir
          · simp [processEvents, hd, ih]
          · simp [processEvents, hd, ih]

/-- C8: when every configured provider fails, the engine emits exactly one
failure result for the file, whose error states that all providers failed
wrapping the last provider's error, and whose URL and provider fields are
empty. -/
theorem claim_C8_all_providers_fail (fi : FileInfo)
    (pre : List EngineProvider) (plast : EngineProvider) (elast : GoError)
    (hfailed : ∀ p ∈ pre, (((p.upload 0).2).2).isSome = true)
    (hlast : ((plast.upload 0).2).2 = some elast) :
    (uploadFile fi none (pre ++ [plast])).results
      = [{ fileName := fi.name, filePath := fi.path, size := 0, url := ""
           provider := ""
           error := some (.wrapped
             ("all providers failed, last error: " ++ elast.errorString)
             elast) }] := by
  have hu : uploadFile fi none (pre ++ [plast])
      = uploadFileLoop fi (pre ++ [plast]) none := rfl
  rw [hu, uploadFileLoop_exhausted fi plast elast hlast pre none hfailed]

/-- C8 witness: both providers fail; the single emitted result wraps the
API error of the last provider and has empty URL and provider fields. -/
theorem claim_C8_all_providers_fail_witness :
    (uploadFile sampleFile none [epFail, epFail2]).results
      = [{ fileName := "a.txt", filePath := "/tmp/a.txt"
           error := some (.wrapped
             "all providers failed, last error: bad request (code: E)"
             (NewAPIError "E" "bad request" none)) }] := by
  have h := claim_C8_all_providers_fail sampleFile [epFail] epFail2
    (NewAPIError "E" "bad request" none)
    (fun p hp => by rw [List.mem_singleton.mp hp]; rfl) rfl
  exact h

/-- C5 counterexample: with response validation enabled, a provider that
returns the Go pair `(nil, nil)` makes the wrapper's `Upload` return no
response and *no error* — the absent-response case is skipped by the
`response != nil` guard, not rejected with an API-kind error as the claim
states. -/
theorem claim_C5_counterexample :
    nilRespWrapper.config.validateResponses = true ∧
    (nilRespWrapper.Upload (fun _ => false) "t" "/tmp/a.txt" 5 ()).response
        = none ∧
    (nilRespWrapper.Upload (fun _ => false) "t" "/tmp/a.txt" 5 ()).error
        = none :=
  ⟨rfl, rfl, rfl⟩

/-- C5 (amended): with response validation enabled, when the upload phase
reports no error, `Upload` fails with the API-kind `MISSING_URL` error if
a response is present whose URL is empty and cannot be backfilled from the
download URL; an absent response with no error is passed through
unvalidated, with no error. -/
theorem claim_C5_amended {σ : Type} (cw : ConsistencyWrapper σ)
    (ctxDone : Nat → Bool) (now filePath : String) (size : Int) (s : σ)
    (r : ProviderResponse)
    (hvr : cw.config.validateResponses = true)
    (hpre : cw.config.preUploadValidation = false ∨
      cw.validateUploadCapability filePath size = none) :
    ((cw.uploadPhase ctxDone s).error = none →
      (cw.uploadPhase ctxDone s).response = some r →
      r.url = "" → r.downloadURL = "" →
      (cw.Upload ctxDone now filePath size s).error =
        some (NewAPIError "MISSING_URL"
          "provider response missing download URL" none))
  ∧ ((cw.uploadPhase ctxDone s).error = none →
      (cw.uploadPhase ctxDone s).response = none →
      (cw.Upload ctxDone now filePath size s).error = none ∧
      (cw.Upload ctxDone now filePath size s).response = none) := by
  rw [Upload_eq_postProcess cw ctxDone now filePath size s hpre]
  constructor
  · intro he hr hu hd
    exact postProcess_missing_url cw now filePath size _ r hvr he hr hu hd
  · intro he hr
    exact postProcess_nil_response cw now filePath size _ he hr

/-- C5 amended witness: a provider succeeding with an entirely empty
response record is rejected with the `MISSING_URL` API error. -/
theorem claim_C5_amended_witness :
    (emptyUrlWrapper.Upload (fun _ => false) "t" "/tmp/a.txt" 5 ()).error =
      some (NewAPIError "MISSING_URL" "provider response missing download URL"
        none) := by
  have h := (claim_C5_amended emptyUrlWrapper (fun _ => false) "t"
    "/tmp/a.txt" 5 () {} rfl (Or.inl rfl)).1 rfl rfl rfl rfl
  exact h

/-- C6 counterexample: pre-upload validation is enabled but capability
checking is disabled; the file is larger than the provider's advertised
maximum, yet `Upload` succeeds — no FileTooLarge error, contradicting the
claim that pre-upload validation alone enforces the size check. -/
theorem claim_C6_counterexample :
    bigFileWrapperNoCaps.config.preUploadValidation = true ∧
    (0 < bigFileWrapperNoCaps.provider.getMaxFileSize ∧
      bigFileWrapperNoCaps.provider.getMaxFileSize < 20) ∧
    (bigFileWrapperNoCaps.Upload (fun _ => false) "t" "/tmp/a.bin" 20 ()).error
        = none :=
  ⟨rfl, by decide, rfl⟩

/-- C6 (amended): with pre-upload validation *and* capability checking
both enabled: `Upload` fails with a FileTooLarge-kind error when the
adapter's advertised max size is positive and the size exceeds it; it
fails with an Unsupported-kind error when the advertised extension set is
non-empty, contains no wildcard, and the file's extension matches no
member; otherwise the capability check is exactly the adapter's own
`ValidateFile` (an empty advertised set means all extensions supported),
and a `ValidateFile` failure is returned likewise — all before the
provider's upload is attempted (zero invocations). -/
theorem claim_C6_amended {σ : Type} (cw : ConsistencyWrapper σ)
    (ctxDone : Nat → Bool) (now filePath : String) (size : Int) (s : σ)
    (hp : cw.config.preUploadValidation = true)
    (hc : cw.config.checkCapabilities = true) :
    ((0 < cw.provider.getMaxFileSize ∧ cw.provider.getMaxFileSize < size) →
      ∃ e, (cw.Upload ctxDone now filePath size s).error = some e ∧
        GetErrorType e = .fileTooLarge ∧
        (cw.Upload ctxDone now filePath size s).calls = 0)
  ∧ (¬(0 < cw.provider.getMaxFileSize ∧ cw.provider.getMaxFileSize < size) →
      cw.provider.getSupportedExtensions ≠ [] →
      (∀ ext ∈ cw.provider.getSupportedExtensions, ¬ ext.toLower = "*") →
      (∀ ext ∈ cw.provider.getSupportedExtensions,
        ¬ ext.toLower = getFileExtension filePath) →
      ∃ e, (cw.Upload ctxDone now filePath size s).error = some e ∧
        GetErrorType e = .unsupported ∧
        (cw.Upload ctxDone now filePath size s).calls = 0)
  ∧ (¬(0 < cw.provider.getMaxFileSize ∧ cw.provider.getMaxFileSize < size) →
      (cw.provider.getSupportedExtensions = [] ∨
        (∃ ext ∈ cw.provider.getSupportedExtensions, ext.toLower = "*") ∨
        (∃ ext ∈ cw.provider.getSupportedExtensions,
          ext.toLower = getFileExtension filePath)) →
      cw.validateUploadCapability filePath size
          = cw.provider.validateFile filePath size
      ∧ ∀ e, cw.provider.validateFile filePath size = some e →
          (cw.Upload ctxDone now filePath size s).error = some e ∧
          (cw.Upload ctxDone now filePath size s).calls = 0) := by
  refine ⟨?_, ?_, ?_⟩
  · intro hsize
    have hv : cw.validateUploadCapability filePath size
        = some (NewFileTooLargeError
            ("file size " ++ toString size ++ " bytes exceeds provider "
              ++ cw.provider.name ++ " maximum "
              ++ toString cw.provider.getMaxFileSize ++ " bytes") none) := by
      unfold ConsistencyWrapper.validateUploadCapability
      rw [if_pos hc, if_pos hsize]
    refine ⟨NewFileTooLargeError
        ("file size " ++ toString size ++ " bytes exceeds provider "
          ++ cw.provider.name ++ " maximum "
          ++ toString cw.provider.getMaxFileSize ++ " bytes") none,
      ?_, rfl, ?_⟩
    · rw [Upload_of_validationError cw ctxDone now filePath size s _ hp hv]
    · rw [Upload_of_validationError cw ctxDone now filePath size s _ hp hv]
  · intro hsize hne hwild hmatch
    have hv : cw.validateUploadCapability filePath size
        = some (NewUnsupportedError
            ("file extension " ++ getFileExtension filePath
              ++ " not supported by provider " ++ cw.provider.name
              ++ ". Supported: "
              ++ goSliceFmt cw.provider.getSupportedExtensions) none) := by
      unfold ConsistencyWrapper.validateUploadCapability
      rw [if_pos hc, if_neg hsize, if_pos (List.length_pos.mpr hne)]
      rw [if_neg (by
        simp only [List.any_eq_true, not_exists]
        intro x
        simp only [not_and, decide_eq_true_eq]
        exact hwild x)]
      rw [if_neg (by
        simp only [List.any_eq_true, not_exists]
        intro x
        simp only [not_and, decide_eq_true_eq]
        exact hmatch x)]
    refine ⟨NewUnsupportedError
        ("file extension " ++ getFileExtension filePath
          ++ " not supported by provider " ++ cw.provider.name
          ++ ". Supported: "
          ++ goSliceFmt cw.provider.getSupportedExtensions) none,
      ?_, rfl, ?_⟩
    · rw [Upload_of_validationError cw ctxDone now filePath size s _ hp hv]
    · rw [Upload_of_validationError cw ctxDone now filePath size s _ hp hv]
  · intro hsize hext
    have hv := validateUploadCapability_delegates cw filePath size hc hsize hext
    refine ⟨hv, ?_⟩
    intro e he
    have hv2 : cw.validateUploadCapability filePath size = some e := hv.trans he
    constructor
    · rw [Upload_of_validationError cw ctxDone now filePath size s e hp hv2]
    · rw [Upload_of_validationError cw ctxDone now filePath size s e hp hv2]

/-- C6 amended witness: with capability checking enabled, the 20-byte file
against the 10-byte limit is rejected before any upload attempt. -/
theorem claim_C6_amended_witness :
    (bigFileWrapperCaps.Upload (fun _ => false) "t" "/tmp/a.bin" 20 ()).calls
        = 0 ∧
    (bigFileWrapperCaps.Upload (fun _ => false) "t" "/tmp/a.bin" 20 ()).error
        = some (NewFileTooLargeError
            "file size 20 bytes exceeds provider small maximum 10 bytes"
            none) := by
  obtain ⟨e, he, hk, hcalls⟩ := (claim_C6_amended bigFileWrapperCaps
    (fun _ => false) "t" "/tmp/a.bin" 20 () rfl rfl).1 (by decide)
  exact ⟨hcalls, rfl⟩

/-- C7: after a failed first attempt (with at least one retry allowed and
no cancellation), the wrapper retries exactly when the error's classified
kind is Network, Temporary or Quota; the kinds API, Authentication,
FileTooLarge and Unsupported terminate the loop at once with that error;
an unclassified error is retried exactly when its message contains,
case-insensitively, "connection", "timeout" or "temporary". -/
theorem claim_C7_retryable_classification {σ : Type}
    (cw : ConsistencyWrapper σ) (s : σ) (e : GoError)
    (hr : 1 ≤ cw.config.maxRetries)
    (hfail : ((cw.provider.upload s).2).2 = some e) :
    ((GetErrorType e = .network ∨ GetErrorType e = .temporary ∨
        GetErrorType e = .quota) →
      2 ≤ (cw.uploadWithRetry (fun _ => false) s).calls)
  ∧ ((GetErrorType e = .api ∨ GetErrorType e = .authentication ∨
        GetErrorType e = .fileTooLarge ∨ GetErrorType e = .unsupported) →
      (cw.uploadWithRetry (fun _ => false) s).calls = 1 ∧
      (cw.uploadWithRetry (fun _ => false) s).error = some e)
  ∧ (GetErrorType e = .unknown →
      (2 ≤ (cw.uploadWithRetry (fun _ => false) s).calls ↔
        (strContains e.errorString.toLower "connection" ||
          strContains e.errorString.toLower "timeout" ||
          strContains e.errorString.toLower "temporary") = true)) := by
  obtain ⟨m, hm⟩ : ∃ m, cw.config.maxRetries = m + 1 :=
    ⟨cw.config.maxRetries - 1, by omega⟩
  have hkey : ∀ b : Bool, cw.isRetryableError (some e) = b →
      (b = true → 2 ≤ (cw.uploadWithRetry (fun _ => false) s).calls) ∧
      (b = false → (cw.uploadWithRetry (fun _ => false) s).calls = 1 ∧
        (cw.uploadWithRetry (fun _ => false) s).error = some e) := by
    intro b hb
    unfold ConsistencyWrapper.uploadWithRetry
    rw [hm]
    rw [retryLoop]
    rw [if_neg (by simp)]
    simp only [hfail]
    constructor
    · intro hbt
      subst hbt
      rw [if_pos hb]
      have hpos := retryLoop_calls_pos cw (m + 1) 1 (some e)
        (cw.provider.upload s).1 (by omega)
      show 2 ≤ (retryLoop cw (fun _ => false) (m + 1) 1 (some e)
        (cw.provider.upload s).1).calls + 1
      omega
    · intro hbf
      subst hbf
      rw [if_neg (by simp [hb])]
      exact ⟨rfl, rfl⟩
  refine ⟨?_, ?_, ?_⟩
  · intro h
    exact (hkey true (isRetryable_of_kind cw e h)).1 rfl
  · intro h
    have hb : cw.isRetryableError (some e) = false := by
      rcases h with h | h | h | h <;>
        simp [ConsistencyWrapper.isRetryableError, h]
    exact (hkey false hb).2 rfl
  · intro hunk
    have hval : cw.isRetryableError (some e) =
        (strContains e.errorString.toLower "connection" ||
          strContains e.errorString.toLower "timeout" ||
          strContains e.errorString.toLower "temporary") := by
      simp [ConsistencyWrapper.isRetryableError, hunk]
    cases hB : (strContains e.errorString.toLower "connection" ||
        strContains e.errorString.toLower "timeout" ||
        strContains e.errorString.toLower "temporary") with
    | true =>
        refine ⟨fun _ => rfl, fun _ => (hkey true (hval.trans hB)).1 rfl⟩
    | false =>
        have h1 := (hkey false (hval.trans hB)).2 rfl
        constructor
        · intro hle
          rw [h1.1] at hle
          omega
        · intro hEq
          exact absurd hEq (by simp)

/-- C7 witness: a network-kind failure on the first attempt leads to a
second invocation. -/
theorem claim_C7_retryable_classification_witness :
    2 ≤ (netFailWrapper.uploadWithRetry (fun _ => false) ()).calls := by
  have h := (claim_C7_retryable_classification netFailWrapper ()
    (NewNetworkError "connection lost" none) (by decide) rfl).1 (Or.inl rfl)
  exact h

/-- C9 counterexample: for a 0-byte file the progress callback computes
`float64(0)/float64(0) × 100`, which is IEEE NaN — not the well-defined
100 % the claim asserts. -/
theorem claim_C9_counterexample :
    (progressEvents "empty.txt" 0 [0]).map (fun ev => ev.percentage)
        = [GoFloat.nan] ∧
    GoFloat.nan ≠ GoFloat.num 100 :=
  ⟨rfl, by decide⟩

/-- C9 (amended): uploading a 0-byte file completes without runtime
division errors (the IEEE float division is total), but every progress
event emitted for it carries percentage NaN (`0/0 × 100`), not 100 %. -/
theorem claim_C9_amended (fileName : String) (reads : List Nat)
    (hz : ∀ n ∈ reads, n = 0) :
    (progressEvents fileName 0 reads).map (fun ev => ev.percentage)
      = List.replicate reads.length GoFloat.nan := by
  have key : ∀ (rs : List Nat) (acc : Int), (∀ n ∈ rs, n = 0) → acc = 0 →
      (progressEventsFrom fileName 0 acc rs).map (fun ev => ev.percentage)
        = List.replicate rs.length GoFloat.nan := by
    intro rs
    induction rs with
    | nil =>
        intro acc _ _
        rfl
    | cons n rest ih =>
        intro acc hz0 hacc
        have hn : n = 0 := hz0 n (List.mem_cons_self n rest)
        subst hn
        subst hacc
        have hrest := ih 0
          (fun m hm => hz0 m (List.mem_cons_of_mem 0 hm)) rfl
        simp [progressEventsFrom, List.replicate_succ, hrest,
          progressPercentage, GoFloat.div, GoFloat.mul]
  exact key reads 0 hz rfl

/-- C9 amended witness: the single progress event of the canonical 0-byte
read sequence carries percentage NaN. -/
theorem claim_C9_amended_witness :
    (progressEvents "empty.txt" 0 [0]).map (fun ev => ev.percentage)
      = List.replicate 1 GoFloat.nan := by
  have h := claim_C9_amended "empty.txt" [0]
    (fun n hn => List.mem_singleton.mp hn)
  exact h

/-- C10: within one retried upload the wrapper hands every attempt the
stream exactly as the previous attempt left it — attempt `i` starts from
the `i`-fold iterate of the provider's own state transition, with no seek
or reset in between — while in the engine every provider invocation starts
at stream position 0, because the engine seeks the file back to its start
before each provider. -/
theorem claim_C10_no_rewind_between_retries {σ : Type}
    (cw : ConsistencyWrapper σ) (ctxDone : Nat → Bool) (s : σ)
    (fi : FileInfo) (ps : List EngineProvider) (openErr : Option GoError) :
    ((cw.uploadWithRetry ctxDone s).startStates
        = (List.range (cw.uploadWithRetry ctxDone s).calls).map
            (fun i => stateIter cw.provider.upload i s))
    ∧ ∀ pos ∈ (uploadFile fi openErr ps).startPositions, pos = 0 := by
  constructor
  · exact retryLoop_startStates cw ctxDone (cw.config.maxRetries + 1) 0 none s
  · cases openErr with
    | none => exact uploadFileLoop_startPositions fi ps none
    | some e =>
        intro pos hpos
        simp [uploadFile] at hpos

end Woof
